import Mathlib

/-!
# Verification of the distributed proxy system's fragmentation pipeline

Shallow embedding of the Go sources of `proxy-system`: the client
(`client/main.go`), the central proxy (`central-proxy/main.go`), the upstream
server, the relay node, the gateway, and the shared `common` library.
Go `map` values are embedded as association lists with replace-on-insert
semantics; Go non-negative `int` quantities (sequence numbers, totals, sizes)
are embedded as `Nat`; byte strings as `List Nat`; timestamps are not modelled
(no claim below depends on wall-clock values).
-/

set_option autoImplicit false

namespace ProxySystem

/-! ## Association-list maps (embedding of Go `map` values)

`lookupKey`/`insertKey`/`removeKey` model Go map read, write and delete.
`insertKey` replaces the binding of an existing key in place (last write
wins) and appends a fresh key at the end, so the list length equals the Go
`len` of the map whenever it is built from the empty map by `insertKey`. -/

def lookupKey {α β : Type} [DecidableEq α] : List (α × β) → α → Option β
  | [], _ => none
  | (k, v) :: rest, a => if k = a then some v else lookupKey rest a

def insertKey {α β : Type} [DecidableEq α] : List (α × β) → α → β → List (α × β)
  | [], a, b => [(a, b)]
  | (k, v) :: rest, a, b => if k = a then (a, b) :: rest else (k, v) :: insertKey rest a b

def removeKey {α β : Type} [DecidableEq α] : List (α × β) → α → List (α × β)
  | [], _ => []
  | (k, v) :: rest, a => if k = a then removeKey rest a else (k, v) :: removeKey rest a

theorem lookupKey_insertKey_self {α β : Type} [DecidableEq α]
    (m : List (α × β)) (a : α) (b : β) : lookupKey (insertKey m a b) a = some b := by
  induction m with
  | nil => simp [insertKey, lookupKey]
  | cons kv rest ih =>
      obtain ⟨k, v⟩ := kv
      by_cases h : k = a <;> simp [insertKey, lookupKey, h, ih]

theorem lookupKey_insertKey_ne {α β : Type} [DecidableEq α]
    (m : List (α × β)) (a a' : α) (b : β) (h : a ≠ a') :
    lookupKey (insertKey m a b) a' = lookupKey m a' := by
  induction m with
  | nil => simp [insertKey, lookupKey, h]
  | cons kv rest ih =>
      obtain ⟨k, v⟩ := kv
      by_cases hk : k = a
      · subst hk
        simp [insertKey, lookupKey, h]
      · simp [insertKey, lookupKey, hk, ih]

theorem insertKey_idem {α β : Type} [DecidableEq α]
    (m : List (α × β)) (a : α) (b : β) (h : lookupKey m a = some b) :
    insertKey m a b = m := by
  induction m with
  | nil => simp [lookupKey] at h
  | cons kv rest ih =>
      obtain ⟨k, v⟩ := kv
      by_cases hk : k = a
      · subst hk
        simp [lookupKey] at h
        simp [insertKey, h]
      · simp [lookupKey, hk] at h
        simp [insertKey, hk, ih h]

theorem lookupKey_removeKey_self {α β : Type} [DecidableEq α]
    (m : List (α × β)) (a : α) : lookupKey (removeKey m a) a = none := by
  induction m with
  | nil => simp [removeKey, lookupKey]
  | cons kv rest ih =>
      obtain ⟨k, v⟩ := kv
      by_cases hk : k = a
      · simp [removeKey, hk, ih]
      · simp [removeKey, lookupKey, hk, ih]

/-! ## Data model (common/types.go)

`Chunk` mirrors `common.Chunk`: session id, 1-based sequence number, total
chunk count, payload bytes, source-client callback address, and the request
metadata carried on every chunk.  The `Timestamp` field is not modelled. -/

structure Chunk where
  sessionID : String
  sequenceNum : Nat
  totalChunks : Nat
  data : List Nat
  sourceClient : String
  targetURL : String
  method : String
  headers : List (String × String)
deriving DecidableEq, Repr

/-- `Session` mirrors `common.Session` (reassembly state at the central proxy):
chunks keyed by sequence number, total learned from the first chunk, and the
request metadata cached from the first chunk.  `ReceivedAt` is not modelled. -/
structure Session where
  sessionID : String
  chunks : List (Nat × Chunk)
  totalChunks : Nat
  targetURL : String
  method : String
  headers : List (String × String)
deriving DecidableEq, Repr

/-! ## Client fragmentation (client/main.go, `fragmentAndSend`) -/

/-- Chunk count of `ProxyClient.fragmentAndSend` (client/main.go 167-170):
`(len(body) + chunkSize - 1) / chunkSize`, forced to 1 when it is 0. -/
def clientTotalChunks (chunkSize : Nat) (body : List Nat) : Nat :=
  let totalChunks := (body.length + chunkSize - 1) / chunkSize
  if totalChunks = 0 then 1 else totalChunks

/-- The chunk list built by `ProxyClient.fragmentAndSend` (client/main.go
177-220) with encryption disabled: chunk `i` (0-based loop index) carries
`body[i*chunkSize : min((i+1)*chunkSize, len(body))]`, holds sequence number
`i+1`, the shared total, the callback address and the request metadata.
(The Go branch replacing an empty slice by an empty slice at `i == 0` is a
no-op and the round-robin send loop's network effects are not part of the
chunk values.) -/
def fragmentAndSend (chunkSize : Nat) (sessionID method url : String)
    (body : List Nat) (headers : List (String × String)) (clientAddr : String) :
    List Chunk :=
  let totalChunks := clientTotalChunks chunkSize body
  (List.range totalChunks).map fun i =>
    { sessionID := sessionID
      sequenceNum := i + 1
      totalChunks := totalChunks
      data := (body.drop (i * chunkSize)).take chunkSize
      sourceClient := clientAddr
      targetURL := url
      method := method
      headers := headers }

/-! ## Client reassembly (client/main.go, `handleResponseChunk` / `assembleResponse`) -/

/-- Client-side pending session (client/main.go `PendingSession`): chunks keyed
by sequence number and the total learned from the last received chunk.  The
completion channel, deadline and request metadata are modelled separately. -/
structure PendingSession where
  sessionID : String
  chunks : List (Nat × Chunk)
  totalChunks : Nat
deriving DecidableEq, Repr

/-- Final assembled response (client/main.go `ProxyResponse`); the Go `error`
field is embedded as `Option String`. -/
structure ProxyResponse where
  statusCode : Nat
  headers : List (String × String)
  body : List Nat
  error : Option String
deriving DecidableEq, Repr

/-- Session-map update of `ProxyClient.handleResponseChunk` (client/main.go
299-302): record the chunk under its sequence number and take the chunk's
total-chunks field as the session's total. -/
def clientReceiveChunk (s : PendingSession) (c : Chunk) : PendingSession :=
  { s with
    chunks := insertKey s.chunks c.sequenceNum c
    totalChunks := c.totalChunks }

/-- Ascending scan shared by `ProxyClient.assembleResponse` (client/main.go
322-332) and `CentralProxy.processCompleteSession` (central-proxy/main.go
140-147): starting at sequence `i`, look up `count` consecutive slots and
concatenate their payloads; stop at the first missing slot, reporting its
index. -/
def gatherFrom (chunks : List (Nat × Chunk)) (i : Nat) : Nat → Except Nat (List Nat)
  | 0 => .ok []
  | count + 1 =>
      match lookupKey chunks i with
      | none => .error i
      | some c =>
          match gatherFrom chunks (i + 1) count with
          | .error j => .error j
          | .ok rest => .ok (c.data ++ rest)

/-- `ProxyClient.assembleResponse` (client/main.go 314-350): concatenate the
chunks in ascending sequence order `1..totalChunks`; a missing slot yields a
response whose only populated field is the missing-chunk error, success yields
a status-200 response carrying the concatenated body. -/
def assembleResponse (s : PendingSession) : ProxyResponse :=
  match gatherFrom s.chunks 1 s.totalChunks with
  | .error i =>
      { statusCode := 0, headers := [], body := [], error := some ("missing chunk " ++ toString i) }
  | .ok body =>
      { statusCode := 200, headers := [], body := body, error := none }

/-- Completion step of `ProxyClient.MakeRequest` (client/main.go 149-155): on
receiving the assembled response from the session's channel the client deletes
the pending session and returns the response together with its error field. -/
def makeRequestFinish (pending : List (String × PendingSession)) (sessionID : String)
    (resp : ProxyResponse) :
    List (String × PendingSession) × ProxyResponse × Option String :=
  (removeKey pending sessionID, resp, resp.error)

/-! ## Outbound HTTP requests -/

/-- An outbound HTTP request as assembled by `CentralProxy.performProxyRequest`
or `StarlinkGateway.performProxyRequest`; `body = none` embeds Go's `nil`
request body. -/
structure OutboundRequest where
  method : String
  url : String
  headers : List (String × String)
  body : Option (List Nat)
deriving DecidableEq, Repr

/-- The outbound request built by `CentralProxy.performProxyRequest`
(central-proxy/main.go 168-177): the session's method, target URL and the
reassembled body, with EVERY session header set on the request — the loop
copies `session.Headers` without removing any key. -/
def centralOutbound (s : Session) (body : List Nat) : OutboundRequest :=
  { method := s.method
    url := s.targetURL
    headers := s.headers
    body := some body }

/-! ## Central proxy (central-proxy/main.go) -/

/-- Response-fragmentation chunk count of `CentralProxy.fragmentAndForward`
(central-proxy/main.go 197): `(len(response) + chunkSize - 1) / chunkSize`,
with NO minimum-of-one clause. -/
def responseTotalChunks (chunkSize : Nat) (response : List Nat) : Nat :=
  (response.length + chunkSize - 1) / chunkSize

/-- `CentralProxy.fragmentAndForward` (central-proxy/main.go 195-235) with
encryption disabled: slice the response, build response chunks carrying the
session id and the source-client address of request chunk 1, and pair chunk
`i` (0-based) with downstream `i mod len(downstreams)`.  Metadata fields the
Go code leaves unset are the zero values.  (Go reads
`session.Chunks[1].SourceClient`, which is only reached when chunk 1 exists;
a missing chunk 1 is embedded as the empty address.) -/
def fragmentAndForward (chunkSize : Nat) (downstreams : List String) (s : Session)
    (response : List Nat) : List (Chunk × String) :=
  let totalChunks := responseTotalChunks chunkSize response
  let sourceClient := ((lookupKey s.chunks 1).map fun c => c.sourceClient).getD ""
  (List.range totalChunks).map fun i =>
    ({ sessionID := s.sessionID
       sequenceNum := i + 1
       totalChunks := totalChunks
       data := (response.drop (i * chunkSize)).take chunkSize
       sourceClient := sourceClient
       targetURL := ""
       method := ""
       headers := [] },
     downstreams.getD (i % downstreams.length) "")

/-- `CentralProxy.processCompleteSession` (central-proxy/main.go 135-165),
sequentialised, with the outbound HTTP call abstracted as the total function
`internet` from the outbound request to the response body: on a missing chunk
the function logs and returns — the session map is NOT changed and nothing is
dispatched; otherwise it reassembles, performs the outbound request, fragments
the response for the downstreams and finally deletes the session. -/
def processCompleteSession (internet : OutboundRequest → List Nat) (chunkSize : Nat)
    (downstreams : List String) (sessions : List (String × Session)) (s : Session) :
    List (String × Session) × List (Chunk × String) :=
  match gatherFrom s.chunks 1 s.totalChunks with
  | .error _ => (sessions, [])
  | .ok body =>
      let response := internet (centralOutbound s body)
      (removeKey sessions s.sessionID, fragmentAndForward chunkSize downstreams s response)

/-- Session-map update of `CentralProxy.handleChunk` (central-proxy/main.go
108-123): insert-or-create the session for the chunk's id — creation
initialises total-chunks and the request metadata from this first chunk — and
store the chunk at its sequence number (a duplicate sequence number overwrites
the prior contents, last write wins).  Returns the new session map together
with the updated session. -/
def centralInsertChunk (sessions : List (String × Session)) (c : Chunk) :
    List (String × Session) × Session :=
  match lookupKey sessions c.sessionID with
  | none =>
      let s : Session :=
        { sessionID := c.sessionID
          chunks := insertKey [] c.sequenceNum c
          totalChunks := c.totalChunks
          targetURL := c.targetURL
          method := c.method
          headers := c.headers }
      (insertKey sessions c.sessionID s, s)
  | some s0 =>
      let s : Session := { s0 with chunks := insertKey s0.chunks c.sequenceNum c }
      (insertKey sessions c.sessionID s, s)

/-- `CentralProxy.handleChunk` (central-proxy/main.go 104-132), sequentialised
and taken after the decrypt step (encryption disabled): store the chunk, and
when the stored-chunk count equals the session's total run
`processCompleteSession`.  Returns the new session map and the response
chunks dispatched by this delivery. -/
def centralHandleChunk (internet : OutboundRequest → List Nat) (chunkSize : Nat)
    (downstreams : List String) (sessions : List (String × Session)) (c : Chunk) :
    List (String × Session) × List (Chunk × String) :=
  let pair := centralInsertChunk sessions c
  if pair.2.chunks.length = pair.2.totalChunks then
    processCompleteSession internet chunkSize downstreams pair.1 pair.2
  else (pair.1, [])

/-! ## Symbolic AES-256-GCM (common/types.go, `EncryptAES` / `DecryptAES`)

`common.EncryptAES` seals the payload with AES-256-GCM under a fresh random
nonce and prepends the nonce (`nonce ‖ ciphertext ‖ tag`);
`common.DecryptAES` splits off the nonce and opens, failing on a tag mismatch
or wrong key.  The cipher itself is library code, embedded symbolically:
sealing wraps the payload in a `cipher` constructor recording key and nonce,
opening unwraps exactly one layer when the key matches and fails otherwise
(a `raw` payload is not a valid nonce-prefixed sealed message). -/

inductive PayloadData where
  | raw (bytes : List Nat)
  | cipher (key : Nat) (nonce : Nat) (inner : PayloadData)
deriving DecidableEq, Repr

def EncryptAES (key nonce : Nat) (d : PayloadData) : PayloadData :=
  .cipher key nonce d

def DecryptAES (key : Nat) : PayloadData → Option PayloadData
  | .cipher k _ inner => if k = key then some inner else none
  | .raw _ => none

/-- Payload transform of the client's send path with encryption enabled
(client/main.go 189-196): the plaintext fragment is sealed once. -/
def clientEncryptChunkData (key nonce : Nat) (plain : List Nat) : PayloadData :=
  EncryptAES key nonce (.raw plain)

/-- Payload transform of `UpstreamServer.handleChunk` with encryption enabled
(unnamed/part_007 86-104): the received payload is passed to `EncryptAES`
directly — there is NO `DecryptAES` call before it. -/
def upstreamChunkData (key nonce : Nat) (d : PayloadData) : PayloadData :=
  EncryptAES key nonce d

/-- Payload transform of `CentralProxy.handleChunk` with encryption enabled
(central-proxy/main.go 93-102): a single `DecryptAES`. -/
def centralChunkData (key : Nat) (d : PayloadData) : Option PayloadData :=
  DecryptAES key d

/-! ## Gateway (unnamed/part_000, `StarlinkGateway`) -/

/-- `TrafficRequest` (unnamed/part_000 42-51) without the `ReceivedAt`
timestamp. -/
structure TrafficRequest where
  requestID : String
  nodeID : String
  targetURL : String
  method : String
  body : List Nat
  headers : List (String × String)
deriving DecidableEq, Repr

/-- Parsed body of a `POST /proxy` request (unnamed/part_000 118-125). -/
structure ProxyRequestBody where
  requestID : String
  targetURL : String
  method : String
  body : List Nat
  headers : List (String × String)
deriving DecidableEq, Repr

/-- Reply of the gateway's `/proxy` handler: 401, 202 with the queued
acknowledgement carrying the request id, or 200 with the written body. -/
inductive GatewayReply where
  | unauthorized
  | queuedAck (requestID : String)
  | okBody (body : List Nat)
deriving DecidableEq, Repr

/-- `StarlinkGateway.authenticateNode` (unnamed/part_000 174-180): the header
pair matches a stored (node, token) entry. -/
def authenticateNode (tokens : List (String × String)) (nodeID token : String) : Bool :=
  match lookupKey tokens nodeID with
  | some expected => expected == token
  | none => false

/-- Header filter of `StarlinkGateway.performProxyRequest` (unnamed/part_000
222-227): every header except `X-Node-ID` and `X-Auth-Token` is set on the
outbound request.  (This is also the formal reading of the spec's
"headers minus the inter-node auth headers".) -/
def stripInternalHeaders (headers : List (String × String)) : List (String × String) :=
  headers.filter fun kv => kv.1 != "X-Node-ID" && kv.1 != "X-Auth-Token"

/-- The outbound request built by `StarlinkGateway.performProxyRequest`
(unnamed/part_000 211-227): target URL, method, filtered headers — and a `nil`
request body (the Go code passes `nil` to `http.NewRequest`). -/
def gwOutbound (t : TrafficRequest) : OutboundRequest :=
  { method := t.method
    url := t.targetURL
    headers := stripInternalHeaders t.headers
    body := none }

/-- `StarlinkGateway.performProxyRequest` (unnamed/part_000 211-242): the
outbound request is executed (recorded in the returned call list), but the
function returns `make([]byte, 0)` — the response from the internet is never
read (lines 237-238: "In production, read the actual response body"). -/
def gwPerformProxyRequest (internet : OutboundRequest → List Nat) (t : TrafficRequest) :
    List Nat × List OutboundRequest :=
  let _resp := internet (gwOutbound t)
  ([], [gwOutbound t])

/-- `StarlinkGateway.handleProxyRequest` (unnamed/part_000 107-171),
sequentialised (the jitter sleep is a timing effect and is not modelled):
authenticate the `X-Node-ID`/`X-Auth-Token` pair (401 on failure, nothing
executed); with traffic mixing enabled append to the batch and acknowledge
with 202 and the request id; otherwise perform the proxy request and answer
200 with its returned body.  The result is (new batch, reply, outbound calls
executed). -/
def handleProxyRequest (internet : OutboundRequest → List Nat) (trafficMixing : Bool)
    (tokens : List (String × String)) (batch : List TrafficRequest)
    (nodeID token : String) (p : ProxyRequestBody) :
    List TrafficRequest × GatewayReply × List OutboundRequest :=
  if authenticateNode tokens nodeID token then
    let t : TrafficRequest :=
      { requestID := p.requestID
        nodeID := nodeID
        targetURL := p.targetURL
        method := p.method
        body := p.body
        headers := p.headers }
    if trafficMixing then
      (batch ++ [t], .queuedAck p.requestID, [])
    else
      let r := gwPerformProxyRequest internet t
      (batch, .okBody r.1, r.2)
  else
    (batch, .unauthorized, [])

/-- The lowercase hex digit for a nibble: code points 48-57 are the decimal
digits, 97-102 the letters a-f. -/
def hexDigit (n : Nat) : Char :=
  if n < 10 then Char.ofNat (48 + n) else Char.ofNat (87 + n)

/-- Hex alphabet of Go's `encoding/hex` (the sixteen lowercase digits). -/
def hexChars : List Char :=
  (List.range 16).map hexDigit

/-- `hex.EncodeToString`: every byte becomes its two lowercase hex digits. -/
def hexEncode (bytes : List Nat) : List Char :=
  (bytes.map fun b => [hexChars.getD (b / 16) '0', hexChars.getD (b % 16) '0']).flatten

/-- `generateToken` (unnamed/part_000 325-329): 32 random bytes rendered as a
64-character hex string; the random bytes are passed in explicitly. -/
def generateToken (randomBytes : List Nat) : String :=
  String.mk (hexEncode randomBytes)

/-- Reply of the gateway's `/register` handler. -/
inductive RegisterReply where
  | unauthorized
  | registered (nodeID : String) (token : String)
deriving DecidableEq, Repr

/-- `StarlinkGateway.handleNodeRegistration` (unnamed/part_000 245-290): a
node id absent from the configured authenticated-nodes list gets 401; a
configured node id gets a freshly minted token, stored in the token map and
returned. -/
def handleNodeRegistration (randomBytes : List Nat) (authNodes : List String)
    (tokens : List (String × String)) (nodeID secret : String) :
    List (String × String) × RegisterReply :=
  if authNodes.contains nodeID then
    let token := generateToken randomBytes
    (insertKey tokens nodeID token, .registered nodeID token)
  else
    (tokens, .unauthorized)

/-! ## Relay next-hop rotation (unnamed/part_002, `RelayNode.rotateRoutes`) -/

/-- One tick of `RelayNode.rotateRoutes` (unnamed/part_002 205-220): with a
next-hops list of length at most 1 the tick is skipped, otherwise the cursor
advances to `(i+1) mod len(nextHops)`. -/
def rotateOnce (nextHops : List String) (idx : Nat) : Nat :=
  if nextHops.length ≤ 1 then idx else (idx + 1) % nextHops.length

/-- The cursor after `k` elapsed rotation periods (the ticker fires once per
period). -/
def rotateTicks (nextHops : List String) : Nat → Nat → Nat
  | 0, idx => idx
  | k + 1, idx => rotateTicks nextHops k (rotateOnce nextHops idx)

/-! ## Helper lemmas on fragmentation -/

theorem clientTotalChunks_eq_max (chunkSize : Nat) (body : List Nat) :
    clientTotalChunks chunkSize body = max 1 ((body.length + chunkSize - 1) / chunkSize) := by
  simp only [clientTotalChunks]
  rcases Nat.eq_zero_or_pos ((body.length + chunkSize - 1) / chunkSize) with h | h
  · rw [if_pos h, h]
    exact (Nat.max_eq_left (Nat.zero_le 1)).symm
  · rw [if_neg (by omega), Nat.max_eq_right h]

theorem clientTotalChunks_pos (chunkSize : Nat) (body : List Nat) :
    1 ≤ clientTotalChunks chunkSize body := by
  rw [clientTotalChunks_eq_max]
  omega

theorem fragmentAndSend_length (chunkSize : Nat) (sessionID method url : String)
    (body : List Nat) (headers : List (String × String)) (clientAddr : String) :
    (fragmentAndSend chunkSize sessionID method url body headers clientAddr).length
      = clientTotalChunks chunkSize body := by
  simp [fragmentAndSend]

theorem fragmentAndSend_getElem? (chunkSize : Nat) (sessionID method url : String)
    (body : List Nat) (headers : List (String × String)) (clientAddr : String)
    (i : Nat) (hi : i < clientTotalChunks chunkSize body) :
    (fragmentAndSend chunkSize sessionID method url body headers clientAddr)[i]?
      = some
        { sessionID := sessionID
          sequenceNum := i + 1
          totalChunks := clientTotalChunks chunkSize body
          data := (body.drop (i * chunkSize)).take chunkSize
          sourceClient := clientAddr
          targetURL := url
          method := method
          headers := headers } := by
  simp [fragmentAndSend, List.getElem?_range hi]

theorem ceil_index_bound (chunkSize bodyLen i : Nat) (hcs : 1 ≤ chunkSize)
    (hi : i < (bodyLen + chunkSize - 1) / chunkSize) : i * chunkSize < bodyLen := by
  have h2 : i + 1 ≤ (bodyLen + chunkSize - 1) / chunkSize := hi
  have h3 : (i + 1) * chunkSize ≤ bodyLen + chunkSize - 1 :=
    (Nat.le_div_iff_mul_le (by omega)).mp h2
  have h4 : (i + 1) * chunkSize = i * chunkSize + chunkSize := Nat.succ_mul i chunkSize
  omega

theorem frag_start_le (chunkSize : Nat) (body : List Nat) (hcs : 1 ≤ chunkSize)
    (i : Nat) (hi : i < clientTotalChunks chunkSize body) : i * chunkSize ≤ body.length := by
  rw [clientTotalChunks_eq_max] at hi
  rcases Nat.eq_zero_or_pos ((body.length + chunkSize - 1) / chunkSize) with h0 | h0
  · rw [h0, Nat.max_eq_left (Nat.zero_le 1)] at hi
    have hz : i = 0 := by omega
    subst hz
    simp
  · rw [Nat.max_eq_right h0] at hi
    exact Nat.le_of_lt (ceil_index_bound chunkSize body.length i hcs hi)

theorem bodyLen_le_total_mul (chunkSize : Nat) (body : List Nat) (hcs : 1 ≤ chunkSize) :
    body.length ≤ clientTotalChunks chunkSize body * chunkSize := by
  rw [clientTotalChunks_eq_max]
  set t := (body.length + chunkSize - 1) / chunkSize with ht
  have h1 : body.length + chunkSize - 1 < (t + 1) * chunkSize := by
    exact (Nat.div_lt_iff_lt_mul (k := chunkSize) (by omega : 0 < chunkSize)
      (x := body.length + chunkSize - 1) (y := t + 1)).mp (by omega)
  have h2 : (t + 1) * chunkSize = t * chunkSize + chunkSize := Nat.succ_mul t chunkSize
  rcases Nat.eq_zero_or_pos t with h0 | h0
  · rw [h0] at h1
    rw [h0, Nat.max_eq_left (Nat.zero_le 1), Nat.one_mul]
    rw [Nat.one_mul] at h1
    omega
  · rw [Nat.max_eq_right h0]
    omega

/-- C2 data slice: the payload of the 0-based chunk `i`. -/
theorem frag_data_spec (chunkSize : Nat) (body : List Nat) (hcs : 1 ≤ chunkSize)
    (i : Nat) (hi : i < clientTotalChunks chunkSize body) :
    ((body.drop (i * chunkSize)).take chunkSize).length
        = min ((i + 1) * chunkSize) body.length - i * chunkSize
    ∧ ∀ j, j < ((body.drop (i * chunkSize)).take chunkSize).length →
        ((body.drop (i * chunkSize)).take chunkSize)[j]? = body[i * chunkSize + j]? := by
  have hle : i * chunkSize ≤ body.length := frag_start_le chunkSize body hcs i hi
  have hsucc : (i + 1) * chunkSize = i * chunkSize + chunkSize := Nat.succ_mul i chunkSize
  constructor
  · simp [List.length_take, List.length_drop]
    omega
  · intro j hj
    simp [List.length_take, List.length_drop] at hj
    rw [List.getElem?_take_of_lt (by omega), List.getElem?_drop]

/-- C2: client fragmentation.  For every body and chunk size ≥ 1 the chunk
count of `fragmentAndSend` equals `⌈|body| / chunkSize⌉` (written
`max 1 ((|body| + chunkSize - 1) / chunkSize)`, so an empty body still yields
one chunk), the `i`-th chunk (1-indexed) carries exactly the bytes
`[(i-1)·chunkSize, min(i·chunkSize, |body|))` of the body, a body of size
exactly `k·chunkSize` yields `k` chunks with the last one full, and a body of
size `k·chunkSize + 1` yields `k+1` chunks with the last one of one byte. -/
theorem fragmentAndSend_count_and_slices (chunkSize : Nat) (sessionID method url : String)
    (body : List Nat) (headers : List (String × String)) (clientAddr : String)
    (hcs : 1 ≤ chunkSize) :
    (fragmentAndSend chunkSize sessionID method url body headers clientAddr).length
        = max 1 ((body.length + chunkSize - 1) / chunkSize)
    ∧ 1 ≤ (fragmentAndSend chunkSize sessionID method url body headers clientAddr).length
    ∧ (body = [] →
        (fragmentAndSend chunkSize sessionID method url body headers clientAddr).length = 1)
    ∧ (∀ i, 1 ≤ i →
        i ≤ (fragmentAndSend chunkSize sessionID method url body headers clientAddr).length →
        ∃ c, (fragmentAndSend chunkSize sessionID method url body headers clientAddr)[i - 1]?
              = some c
          ∧ c.sequenceNum = i
          ∧ c.totalChunks
              = (fragmentAndSend chunkSize sessionID method url body headers clientAddr).length
          ∧ c.data.length = min (i * chunkSize) body.length - (i - 1) * chunkSize
          ∧ ∀ j, j < c.data.length → c.data[j]? = body[(i - 1) * chunkSize + j]?)
    ∧ (∀ k, 1 ≤ k → body.length = k * chunkSize →
        (fragmentAndSend chunkSize sessionID method url body headers clientAddr).length = k
        ∧ ∃ c, (fragmentAndSend chunkSize sessionID method url body headers clientAddr)[k - 1]?
              = some c ∧ c.data.length = chunkSize)
    ∧ (∀ k, body.length = k * chunkSize + 1 →
        (fragmentAndSend chunkSize sessionID method url body headers clientAddr).length = k + 1
        ∧ ∃ c, (fragmentAndSend chunkSize sessionID method url body headers clientAddr)[k]?
              = some c ∧ c.data.length = 1) := by
  have hlen := fragmentAndSend_length chunkSize sessionID method url body headers clientAddr
  have hpos := clientTotalChunks_pos chunkSize body
  refine ⟨by rw [hlen, clientTotalChunks_eq_max], by omega, ?_, ?_, ?_, ?_⟩
  · intro hbody
    subst hbody
    rw [hlen, clientTotalChunks_eq_max]
    simp only [List.length_nil, Nat.zero_add]
    rw [Nat.div_eq_of_lt (by omega)]
    exact Nat.max_eq_left (Nat.zero_le 1)
  · intro i hi1 hi2
    rw [hlen] at hi2
    have hi' : i - 1 < clientTotalChunks chunkSize body := by omega
    refine ⟨_, fragmentAndSend_getElem? chunkSize sessionID method url body headers clientAddr
      (i - 1) hi', show i - 1 + 1 = i by omega, by rw [hlen], ?_, ?_⟩
    · have hspec := (frag_data_spec chunkSize body hcs (i - 1) hi').1
      have hi1' : i - 1 + 1 = i := by omega
      rw [hi1'] at hspec
      exact hspec
    · have hspec := (frag_data_spec chunkSize body hcs (i - 1) hi').2
      exact hspec
  · intro k hk hbody
    have htot : clientTotalChunks chunkSize body = k := by
      rw [clientTotalChunks_eq_max, hbody]
      have : k * chunkSize + chunkSize - 1 = chunkSize - 1 + k * chunkSize := by omega
      rw [this, Nat.add_mul_div_right _ _ (by omega : 0 < chunkSize),
        Nat.div_eq_of_lt (by omega)]
      rw [Nat.zero_add, Nat.max_eq_right hk]
    have hk' : k - 1 < clientTotalChunks chunkSize body := by omega
    refine ⟨by rw [hlen, htot], _,
      fragmentAndSend_getElem? chunkSize sessionID method url body headers clientAddr
        (k - 1) hk', ?_⟩
    have hspec := (frag_data_spec chunkSize body hcs (k - 1) hk').1
    have hmul : (k - 1 + 1) * chunkSize = k * chunkSize := by
      congr 1
      omega
    rw [hspec, hmul, hbody]
    have hmul2 : (k - 1) * chunkSize + chunkSize = k * chunkSize := by
      have hk1 : k - 1 + 1 = k := by omega
      calc (k - 1) * chunkSize + chunkSize
          = (k - 1 + 1) * chunkSize := (Nat.succ_mul _ _).symm
        _ = k * chunkSize := by rw [hk1]
    omega
  · intro k hbody
    have htot : clientTotalChunks chunkSize body = k + 1 := by
      rw [clientTotalChunks_eq_max, hbody]
      have : k * chunkSize + 1 + chunkSize - 1 = k * chunkSize + chunkSize := by omega
      rw [this, ← Nat.succ_mul, Nat.mul_div_cancel _ (by omega : 0 < chunkSize)]
      rw [Nat.max_eq_right (by omega)]
    have hk' : k < clientTotalChunks chunkSize body := by omega
    refine ⟨by rw [hlen, htot], _,
      fragmentAndSend_getElem? chunkSize sessionID method url body headers clientAddr k hk', ?_⟩
    have hspec := (frag_data_spec chunkSize body hcs k hk').1
    rw [hspec, hbody]
    have hmul : (k + 1) * chunkSize = k * chunkSize + chunkSize := Nat.succ_mul k chunkSize
    omega

/-- Witness for C2 at body `[1,2,3,4,5]` with chunk size 2. -/
theorem fragmentAndSend_count_and_slices_witness :
    1 ≤ 2
    ∧ ((fragmentAndSend 2 "s" "GET" "http://t" [1, 2, 3, 4, 5] [] "client:7000").length
          = max 1 (([1, 2, 3, 4, 5].length + 2 - 1) / 2)
      ∧ 1 ≤ (fragmentAndSend 2 "s" "GET" "http://t" [1, 2, 3, 4, 5] [] "client:7000").length
      ∧ (([1, 2, 3, 4, 5] : List Nat) = [] →
          (fragmentAndSend 2 "s" "GET" "http://t" [1, 2, 3, 4, 5] [] "client:7000").length = 1)
      ∧ (∀ i, 1 ≤ i →
          i ≤ (fragmentAndSend 2 "s" "GET" "http://t" [1, 2, 3, 4, 5] [] "client:7000").length →
          ∃ c, (fragmentAndSend 2 "s" "GET" "http://t" [1, 2, 3, 4, 5] [] "client:7000")[i - 1]?
                = some c
            ∧ c.sequenceNum = i
            ∧ c.totalChunks
                = (fragmentAndSend 2 "s" "GET" "http://t" [1, 2, 3, 4, 5] [] "client:7000").length
            ∧ c.data.length = min (i * 2) [1, 2, 3, 4, 5].length - (i - 1) * 2
            ∧ ∀ j, j < c.data.length → c.data[j]? = [1, 2, 3, 4, 5][(i - 1) * 2 + j]?)
      ∧ (∀ k, 1 ≤ k → ([1, 2, 3, 4, 5] : List Nat).length = k * 2 →
          (fragmentAndSend 2 "s" "GET" "http://t" [1, 2, 3, 4, 5] [] "client:7000").length = k
          ∧ ∃ c, (fragmentAndSend 2 "s" "GET" "http://t" [1, 2, 3, 4, 5] [] "client:7000")[k - 1]?
                = some c ∧ c.data.length = 2)
      ∧ (∀ k, ([1, 2, 3, 4, 5] : List Nat).length = k * 2 + 1 →
          (fragmentAndSend 2 "s" "GET" "http://t" [1, 2, 3, 4, 5] [] "client:7000").length = k + 1
          ∧ ∃ c, (fragmentAndSend 2 "s" "GET" "http://t" [1, 2, 3, 4, 5] [] "client:7000")[k]?
                = some c ∧ c.data.length = 1)) :=
  ⟨by decide, fragmentAndSend_count_and_slices 2 "s" "GET" "http://t" [1, 2, 3, 4, 5] []
    "client:7000" (by decide)⟩

/-! ## Helper lemmas on reassembly -/

theorem foldl_receive_chunks (l : List Chunk) (s : PendingSession) :
    (l.foldl clientReceiveChunk s).chunks
      = l.foldl (fun m c => insertKey m c.sequenceNum c) s.chunks := by
  induction l generalizing s with
  | nil => rfl
  | cons c rest ih =>
      rw [List.foldl_cons, List.foldl_cons, ih]
      rfl

theorem foldl_receive_total (l : List Chunk) (s : PendingSession) (n : Nat)
    (hne : l ≠ []) (hall : ∀ c ∈ l, c.totalChunks = n) :
    (l.foldl clientReceiveChunk s).totalChunks = n := by
  induction l generalizing s with
  | nil => exact absurd rfl hne
  | cons c rest ih =>
      rw [List.foldl_cons]
      by_cases h : rest = []
      · subst h
        simp only [List.foldl_nil]
        exact hall c (by simp)
      · exact ih (clientReceiveChunk s c) h fun c' hc' => hall c' (by simp [hc'])

theorem lookup_foldl_insert_range (mk : Nat → Chunk)
    (hseq : ∀ i, (mk i).sequenceNum = i + 1) (n : Nat) :
    ∀ q, 1 ≤ q → q ≤ n →
      lookupKey (((List.range n).map mk).foldl (fun m c => insertKey m c.sequenceNum c) []) q
        = some (mk (q - 1)) := by
  induction n with
  | zero => intro q hq1 hqn; omega
  | succ n ih =>
      intro q hq1 hqn
      rw [List.range_succ, List.map_append, List.foldl_append]
      simp only [List.map_cons, List.map_nil, List.foldl_cons, List.foldl_nil]
      rw [hseq n]
      by_cases h : q = n + 1
      · subst h
        rw [lookupKey_insertKey_self]
        rfl
      · rw [lookupKey_insertKey_ne _ _ _ _ (by omega)]
        exact ih q hq1 (by omega)

theorem lookup_foldl_insert_range_pred (mk : Nat → Chunk)
    (hseq : ∀ i, (mk i).sequenceNum = i + 1) (n : Nat) (j : Nat) (hj : j < n) :
    lookupKey (((List.range n).map mk).foldl (fun m c => insertKey m c.sequenceNum c) []) (j + 1)
      = some (mk j) :=
  lookup_foldl_insert_range mk hseq n (j + 1) (by omega) (by omega)

theorem gatherFrom_of_slices (chunks : List (Nat × Chunk)) (body : List Nat) (chunkSize : Nat) :
    ∀ t s0,
      (∀ j, j < t → ∃ c, lookupKey chunks (s0 + 1 + j) = some c
        ∧ c.data = (body.drop ((s0 + j) * chunkSize)).take chunkSize) →
      gatherFrom chunks (s0 + 1) t = .ok ((body.drop (s0 * chunkSize)).take (t * chunkSize)) := by
  intro t
  induction t with
  | zero =>
      intro s0 _
      simp [gatherFrom]
  | succ t ih =>
      intro s0 h
      obtain ⟨c, hc, hdata⟩ := h 0 (by omega)
      rw [Nat.add_zero] at hc hdata
      have h' : ∀ j, j < t → ∃ c, lookupKey chunks (s0 + 1 + 1 + j) = some c
          ∧ c.data = (body.drop ((s0 + 1 + j) * chunkSize)).take chunkSize := by
        intro j hj
        have := h (j + 1) (by omega)
        have harith : s0 + 1 + (j + 1) = s0 + 1 + 1 + j := by omega
        have harith2 : s0 + (j + 1) = s0 + 1 + j := by omega
        rw [harith, harith2] at this
        exact this
      have hrec := ih (s0 + 1) h'
      show (match lookupKey chunks (s0 + 1) with
        | none => Except.error (s0 + 1)
        | some c =>
            match gatherFrom chunks (s0 + 1 + 1) t with
            | .error j => Except.error j
            | .ok rest => Except.ok (c.data ++ rest)) = _
      rw [hc, hrec]
      show Except.ok (c.data ++ (body.drop ((s0 + 1) * chunkSize)).take (t * chunkSize)) = _
      rw [hdata]
      have hdrop : (body.drop (s0 * chunkSize)).drop chunkSize
          = body.drop ((s0 + 1) * chunkSize) := by
        rw [List.drop_drop]
        congr 1
        rw [Nat.succ_mul]
      have htake : (body.drop (s0 * chunkSize)).take ((t + 1) * chunkSize)
          = (body.drop (s0 * chunkSize)).take chunkSize
            ++ ((body.drop (s0 * chunkSize)).drop chunkSize).take (t * chunkSize) := by
        have hc' : (t + 1) * chunkSize = chunkSize + t * chunkSize := by
          rw [Nat.succ_mul]
          omega
        rw [hc', List.take_add]
      rw [htake, hdrop]

/-- C3: fragment/reassemble round trip.  With encryption disabled, delivering
every chunk produced by `fragmentAndSend` to a fresh pending session (the
`handleResponseChunk` update) and then running the client's
`assembleResponse` — which concatenates payloads in strictly ascending
sequence order — yields exactly the original body in a status-200 response. -/
theorem fragment_reassemble_roundtrip (chunkSize : Nat) (sessionID method url : String)
    (body : List Nat) (headers : List (String × String)) (clientAddr : String)
    (hcs : 1 ≤ chunkSize) :
    assembleResponse
        ((fragmentAndSend chunkSize sessionID method url body headers clientAddr).foldl
          clientReceiveChunk { sessionID := sessionID, chunks := [], totalChunks := 0 })
      = { statusCode := 200, headers := [], body := body, error := none } := by
  set n := clientTotalChunks chunkSize body with hn
  have hpos : 1 ≤ n := clientTotalChunks_pos chunkSize body
  set mk : Nat → Chunk := fun i =>
    { sessionID := sessionID
      sequenceNum := i + 1
      totalChunks := n
      data := (body.drop (i * chunkSize)).take chunkSize
      sourceClient := clientAddr
      targetURL := url
      method := method
      headers := headers } with hmk
  have hfrag : fragmentAndSend chunkSize sessionID method url body headers clientAddr
      = (List.range n).map mk := by
    rw [fragmentAndSend, hmk]
  set session := (fragmentAndSend chunkSize sessionID method url body headers
    clientAddr).foldl clientReceiveChunk
    { sessionID := sessionID, chunks := [], totalChunks := 0 } with hsession
  have hne : fragmentAndSend chunkSize sessionID method url body headers clientAddr ≠ [] := by
    rw [hfrag]
    intro hcontra
    have := congrArg List.length hcontra
    simp at this
    omega
  have htot : session.totalChunks = n := by
    apply foldl_receive_total _ _ _ hne
    intro c hc
    rw [hfrag] at hc
    simp only [List.mem_map] at hc
    obtain ⟨i, _, rfl⟩ := hc
    rfl
  have hchunks : session.chunks
      = ((List.range n).map mk).foldl (fun m c => insertKey m c.sequenceNum c) [] := by
    rw [hsession, foldl_receive_chunks, hfrag]
  have hlookup : ∀ q, 1 ≤ q → q ≤ n → lookupKey session.chunks q = some (mk (q - 1)) := by
    intro q hq1 hqn
    rw [hchunks]
    exact lookup_foldl_insert_range mk (fun i => rfl) n q hq1 hqn
  have hgather : gatherFrom session.chunks 1 n = .ok ((body.drop 0).take (n * chunkSize)) := by
    have hmain := gatherFrom_of_slices session.chunks body chunkSize n 0 ?_
    · rw [Nat.zero_mul] at hmain
      exact hmain
    · intro j hj
      refine ⟨mk j, ?_, by rw [Nat.zero_add]⟩
      have hl := hlookup (j + 1) (by omega) (by omega)
      have harith : 0 + 1 + j = j + 1 := by omega
      rw [harith, hl]
      rfl
  have hbodyfull : (body.drop 0).take (n * chunkSize) = body := by
    rw [List.drop_zero]
    exact List.take_of_length_le (bodyLen_le_total_mul chunkSize body hcs)
  rw [assembleResponse, htot, hgather, hbodyfull]

/-- Witness for C3 at body `[7,8,9]` with chunk size 2. -/
theorem fragment_reassemble_roundtrip_witness :
    1 ≤ 2
    ∧ assembleResponse
        ((fragmentAndSend 2 "sess" "POST" "http://t" [7, 8, 9] [] "client:7000").foldl
          clientReceiveChunk { sessionID := "sess", chunks := [], totalChunks := 0 })
      = { statusCode := 200, headers := [], body := [7, 8, 9], error := none } :=
  ⟨by decide,
    fragment_reassemble_roundtrip 2 "sess" "POST" "http://t" [7, 8, 9] [] "client:7000"
      (by decide)⟩

/-! ## Missing chunks -/

theorem gatherFrom_error_of_missing (chunks : List (Nat × Chunk)) :
    ∀ t s i, s ≤ i → i < s + t → lookupKey chunks i = none →
      ∃ j, gatherFrom chunks s t = .error j ∧ lookupKey chunks j = none := by
  intro t
  induction t with
  | zero =>
      intro s i h1 h2 _
      omega
  | succ t ih =>
      intro s i h1 h2 hnone
      match hs : lookupKey chunks s with
      | none =>
          refine ⟨s, ?_, hs⟩
          show (match lookupKey chunks s with
            | none => Except.error s
            | some c =>
                match gatherFrom chunks (s + 1) t with
                | .error j => Except.error j
                | .ok rest => Except.ok (c.data ++ rest)) = _
          rw [hs]
      | some c =>
          have hi : s ≠ i := by
            intro h
            rw [h, hnone] at hs
            cases hs
          obtain ⟨j, hj, hjn⟩ := ih (s + 1) i (by omega) (by omega) hnone
          refine ⟨j, ?_, hjn⟩
          show (match lookupKey chunks s with
            | none => Except.error s
            | some c =>
                match gatherFrom chunks (s + 1) t with
                | .error j => Except.error j
                | .ok rest => Except.ok (c.data ++ rest)) = _
          rw [hs, hj]

/-- C4 (amended): missing chunk at completion.  When the received-chunk count
equals total-chunks but some sequence slot in `[1, total]` is empty, the
client's `assembleResponse` produces a missing-chunk error which
`MakeRequest` hands to the waiting caller while deleting the pending session;
the central proxy's `processCompleteSession` dispatches no response chunk,
but — unlike the client — returns with the session map UNCHANGED, leaving the
session to the periodic timeout sweep instead of evicting it. -/
theorem missing_chunk_fatal (ps : PendingSession)
    (pending : List (String × PendingSession))
    (internet : OutboundRequest → List Nat) (chunkSize : Nat) (downstreams : List String)
    (sessions : List (String × Session)) (s : Session) (i₁ i₂ : Nat)
    (hcount : ps.chunks.length = ps.totalChunks)
    (h1a : 1 ≤ i₁) (h1b : i₁ ≤ ps.totalChunks) (h1c : lookupKey ps.chunks i₁ = none)
    (hcount2 : s.chunks.length = s.totalChunks)
    (h2a : 1 ≤ i₂) (h2b : i₂ ≤ s.totalChunks) (h2c : lookupKey s.chunks i₂ = none) :
    (∃ j, (assembleResponse ps).error = some ("missing chunk " ++ toString j)
      ∧ lookupKey ps.chunks j = none)
    ∧ lookupKey (makeRequestFinish pending ps.sessionID (assembleResponse ps)).1 ps.sessionID
        = none
    ∧ (makeRequestFinish pending ps.sessionID (assembleResponse ps)).2.2
        = (assembleResponse ps).error
    ∧ processCompleteSession internet chunkSize downstreams sessions s = (sessions, []) := by
  obtain ⟨j₁, hg₁, hn₁⟩ :=
    gatherFrom_error_of_missing ps.chunks ps.totalChunks 1 i₁ h1a (by omega) h1c
  obtain ⟨j₂, hg₂, _⟩ :=
    gatherFrom_error_of_missing s.chunks s.totalChunks 1 i₂ h2a (by omega) h2c
  refine ⟨⟨j₁, ?_, hn₁⟩, ?_, rfl, ?_⟩
  · rw [assembleResponse, hg₁]
  · exact lookupKey_removeKey_self pending ps.sessionID
  · rw [processCompleteSession, hg₂]

/-- Fixture for C4: a request chunk stored in slot 1 of a 2-chunk session. -/
def gapChunkA : Chunk :=
  { sessionID := "s", sequenceNum := 1, totalChunks := 2, data := [1],
    sourceClient := "cl:1", targetURL := "http://t", method := "GET", headers := [] }

/-- Fixture for C4: a stray chunk stored in slot 3 of a 2-chunk session, so the
received count reaches the total while slot 2 stays empty. -/
def gapChunkB : Chunk :=
  { sessionID := "s", sequenceNum := 3, totalChunks := 2, data := [3],
    sourceClient := "cl:1", targetURL := "http://t", method := "GET", headers := [] }

/-- Fixture for C4: the central session holding `gapChunkA` and `gapChunkB`. -/
def gapSession : Session :=
  { sessionID := "s", chunks := [(1, gapChunkA), (3, gapChunkB)], totalChunks := 2,
    targetURL := "http://t", method := "GET", headers := [] }

/-- Fixture for C4: the client pending session holding the same two chunks. -/
def gapPending : PendingSession :=
  { sessionID := "s", chunks := [(1, gapChunkA), (3, gapChunkB)], totalChunks := 2 }

/-- Witness for C4's amended theorem at the gap fixtures: count 2 equals total
2, slot 2 is empty; the client response carries a missing-chunk error, the
pending session is deleted, and the central proxy neither dispatches nor
changes its session map. -/
theorem missing_chunk_fatal_witness :
    (∃ j, (assembleResponse gapPending).error = some ("missing chunk " ++ toString j)
      ∧ lookupKey gapPending.chunks j = none)
    ∧ lookupKey (makeRequestFinish [("s", gapPending)] gapPending.sessionID
        (assembleResponse gapPending)).1 gapPending.sessionID = none
    ∧ (makeRequestFinish [("s", gapPending)] gapPending.sessionID
        (assembleResponse gapPending)).2.2 = (assembleResponse gapPending).error
    ∧ processCompleteSession (fun _ => [9]) 4 ["d0"] [("s", gapSession)] gapSession
        = ([("s", gapSession)], []) :=
  missing_chunk_fatal gapPending [("s", gapPending)] (fun _ => [9]) 4 ["d0"]
    [("s", gapSession)] gapSession 2 2 (by decide) (by decide) (by decide) (by decide)
    (by decide) (by decide) (by decide) (by decide)

/-- C4 counterexample: the claim says the central proxy evicts the session
when the completion check finds a missing chunk; on the concrete gap fixture
`processCompleteSession` returns with the session still in the map. -/
theorem central_missing_chunk_not_evicted :
    lookupKey (processCompleteSession (fun _ => [9]) 4 ["d0"]
        [("s", gapSession)] gapSession).1 "s" = some gapSession := by
  decide


/-! ## Duplicate delivery at the central proxy -/

theorem centralHandleChunk_eq (internet : OutboundRequest → List Nat) (chunkSize : Nat)
    (downstreams : List String) (sessions : List (String × Session)) (c : Chunk) :
    centralHandleChunk internet chunkSize downstreams sessions c
      = if (centralInsertChunk sessions c).2.chunks.length
            = (centralInsertChunk sessions c).2.totalChunks then
          processCompleteSession internet chunkSize downstreams
            (centralInsertChunk sessions c).1 (centralInsertChunk sessions c).2
        else ((centralInsertChunk sessions c).1, []) := rfl

theorem centralInsertChunk_fst (sessions : List (String × Session)) (c : Chunk) :
    (centralInsertChunk sessions c).1
      = insertKey sessions c.sessionID (centralInsertChunk sessions c).2 := by
  rcases h : lookupKey sessions c.sessionID with _ | s0 <;>
    simp [centralInsertChunk, h]

theorem centralInsertChunk_lookup (sessions : List (String × Session)) (c : Chunk) :
    lookupKey (centralInsertChunk sessions c).1 c.sessionID
      = some (centralInsertChunk sessions c).2 := by
  rw [centralInsertChunk_fst]
  exact lookupKey_insertKey_self sessions c.sessionID (centralInsertChunk sessions c).2

theorem centralInsertChunk_chunk (sessions : List (String × Session)) (c : Chunk) :
    lookupKey (centralInsertChunk sessions c).2.chunks c.sequenceNum = some c := by
  rcases h : lookupKey sessions c.sessionID with _ | s0 <;>
    simp [centralInsertChunk, h, lookupKey_insertKey_self]

theorem centralInsertChunk_idem (sessions : List (String × Session)) (c : Chunk) :
    centralInsertChunk (centralInsertChunk sessions c).1 c = centralInsertChunk sessions c := by
  have h2 := centralInsertChunk_lookup sessions c
  have h3 := centralInsertChunk_chunk sessions c
  have h4 : ({ (centralInsertChunk sessions c).2 with
      chunks := insertKey (centralInsertChunk sessions c).2.chunks c.sequenceNum c } : Session)
      = (centralInsertChunk sessions c).2 := by
    rw [insertKey_idem _ _ _ h3]
  show (match lookupKey (centralInsertChunk sessions c).1 c.sessionID with
    | none =>
        let s : Session :=
          { sessionID := c.sessionID
            chunks := insertKey [] c.sequenceNum c
            totalChunks := c.totalChunks
            targetURL := c.targetURL
            method := c.method
            headers := c.headers }
        (insertKey (centralInsertChunk sessions c).1 c.sessionID s, s)
    | some s0 =>
        let s : Session := { s0 with chunks := insertKey s0.chunks c.sequenceNum c }
        (insertKey (centralInsertChunk sessions c).1 c.sessionID s, s)) = _
  rw [h2]
  show (insertKey (centralInsertChunk sessions c).1 c.sessionID
      { (centralInsertChunk sessions c).2 with
        chunks := insertKey (centralInsertChunk sessions c).2.chunks c.sequenceNum c },
    ({ (centralInsertChunk sessions c).2 with
        chunks := insertKey (centralInsertChunk sessions c).2.chunks c.sequenceNum c } : Session))
      = _
  rw [h4, insertKey_idem _ _ _ h2]

theorem centralInsertChunk_sessionID (sessions : List (String × Session)) (c : Chunk)
    (hwf : ∀ sid sess, lookupKey sessions sid = some sess → sess.sessionID = sid) :
    (centralInsertChunk sessions c).2.sessionID = c.sessionID := by
  rcases h : lookupKey sessions c.sessionID with _ | s0
  · simp [centralInsertChunk, h]
  · simp [centralInsertChunk, h]
    exact hwf c.sessionID s0 h

/-- C7 (amended): duplicate delivery at the central proxy is idempotent while
the session is live.  If the first delivery of a chunk leaves its session in
the map (i.e. it did not complete the session and trigger the
dispatch-and-teardown path), then delivering the very same chunk again
changes nothing: the session map is unchanged (the duplicate sequence number
overwrites its slot with the identical chunk, last write wins) and the second
delivery dispatches no response chunk, so the set of response chunks
eventually dispatched to the downstreams is unchanged.  (`hwf` is the map
invariant of every reachable state: a stored session's id field equals its
key.) -/
theorem central_duplicate_delivery_idempotent
    (internet : OutboundRequest → List Nat) (chunkSize : Nat) (downstreams : List String)
    (sessions : List (String × Session)) (c : Chunk)
    (hwf : ∀ sid sess, lookupKey sessions sid = some sess → sess.sessionID = sid)
    (hlive : lookupKey (centralHandleChunk internet chunkSize downstreams sessions c).1
        c.sessionID ≠ none) :
    centralHandleChunk internet chunkSize downstreams
        (centralHandleChunk internet chunkSize downstreams sessions c).1 c
      = ((centralHandleChunk internet chunkSize downstreams sessions c).1, []) := by
  have hidem := centralInsertChunk_idem sessions c
  by_cases hcomp : (centralInsertChunk sessions c).2.chunks.length
      = (centralInsertChunk sessions c).2.totalChunks
  · rcases hg : gatherFrom (centralInsertChunk sessions c).2.chunks 1
        (centralInsertChunk sessions c).2.totalChunks with j | body
    · -- completion check fires but a chunk is missing: nothing changes
      have hfirst : centralHandleChunk internet chunkSize downstreams sessions c
          = ((centralInsertChunk sessions c).1, []) := by
        rw [centralHandleChunk_eq, if_pos hcomp, processCompleteSession, hg]
      rw [hfirst]
      rw [centralHandleChunk_eq, hidem, if_pos hcomp, processCompleteSession, hg]
    · -- the session completed: it was dispatched and removed, contradicting liveness
      exfalso
      apply hlive
      rw [centralHandleChunk_eq, if_pos hcomp, processCompleteSession, hg]
      show lookupKey (removeKey (centralInsertChunk sessions c).1
        (centralInsertChunk sessions c).2.sessionID) c.sessionID = none
      rw [centralInsertChunk_sessionID sessions c hwf]
      exact lookupKey_removeKey_self (centralInsertChunk sessions c).1 c.sessionID
  · have hfirst : centralHandleChunk internet chunkSize downstreams sessions c
        = ((centralInsertChunk sessions c).1, []) := by
      rw [centralHandleChunk_eq, if_neg hcomp]
    rw [hfirst]
    rw [centralHandleChunk_eq, hidem, if_neg hcomp]

/-- Fixture for C7: chunk 1 of a 2-chunk request session. -/
def dupChunkA : Chunk :=
  { sessionID := "s", sequenceNum := 1, totalChunks := 2, data := [1],
    sourceClient := "cl:1", targetURL := "http://t", method := "GET", headers := [] }

/-- Fixture for C7: chunk 2 of the same session; its delivery completes the
session. -/
def dupChunkB : Chunk :=
  { sessionID := "s", sequenceNum := 2, totalChunks := 2, data := [2],
    sourceClient := "cl:1", targetURL := "http://t", method := "GET", headers := [] }

/-- Witness for C7's amended theorem: delivering chunk 1 of a 2-chunk session
to an empty central leaves the session live; redelivering the same chunk
changes neither the map nor the dispatched set. -/
theorem central_duplicate_delivery_idempotent_witness :
    lookupKey (centralHandleChunk (fun _ => [9]) 4 ["d0"] [] dupChunkA).1
        dupChunkA.sessionID ≠ none
    ∧ centralHandleChunk (fun _ => [9]) 4 ["d0"]
          (centralHandleChunk (fun _ => [9]) 4 ["d0"] [] dupChunkA).1 dupChunkA
        = ((centralHandleChunk (fun _ => [9]) 4 ["d0"] [] dupChunkA).1, []) :=
  ⟨by decide,
    central_duplicate_delivery_idempotent (fun _ => [9]) 4 ["d0"] [] dupChunkA
      (fun _ _ h => nomatch h) (by decide)⟩

/-- C7 counterexample: the claim as stated quantifies over every second
delivery.  Deliver chunk 1 then chunk 2 of a 2-chunk session (the session
completes, its response is dispatched and the session is removed), then
deliver chunk 2 once more: the redelivery re-creates a partial session, so
the session state does not equal the state after the first delivery of that
chunk. -/
theorem central_duplicate_after_teardown_changes_state :
    centralHandleChunk (fun _ => [9]) 4 ["d0"]
        (centralHandleChunk (fun _ => [9]) 4 ["d0"]
          (centralHandleChunk (fun _ => [9]) 4 ["d0"] [] dupChunkA).1 dupChunkB).1 dupChunkB
      ≠ ((centralHandleChunk (fun _ => [9]) 4 ["d0"]
          (centralHandleChunk (fun _ => [9]) 4 ["d0"] [] dupChunkA).1 dupChunkB).1, []) := by
  decide

/-! ## Empty response bodies -/

/-- C10: empty-response edge case at the central proxy.  For chunk size ≥ 1
the response fragmentation of an empty outbound response computes
total-chunks = 0 and builds no response chunk at all, so nothing is
dispatched to any downstream — whereas the client's request fragmentation of
an empty body forces one chunk; the minimum-of-one rule is absent from
`fragmentAndForward`. -/
theorem central_empty_response_no_chunks (chunkSize : Nat) (downstreams : List String)
    (s : Session) (hcs : 1 ≤ chunkSize) :
    responseTotalChunks chunkSize [] = 0
    ∧ fragmentAndForward chunkSize downstreams s [] = []
    ∧ clientTotalChunks chunkSize [] = 1 := by
  have h0 : responseTotalChunks chunkSize [] = 0 := by
    unfold responseTotalChunks
    simp only [List.length_nil, Nat.zero_add]
    exact Nat.div_eq_of_lt (by omega)
  refine ⟨h0, ?_, ?_⟩
  · simp only [fragmentAndForward, h0, List.range_zero, List.map_nil]
  · simp only [clientTotalChunks, List.length_nil, Nat.zero_add]
    rw [Nat.div_eq_of_lt (by omega)]
    rfl

/-- Witness for C10 at chunk size 8192 and an empty central session. -/
theorem central_empty_response_no_chunks_witness :
    1 ≤ 8192
    ∧ (responseTotalChunks 8192 [] = 0
      ∧ fragmentAndForward 8192 ["d0", "d1"]
          { sessionID := "s", chunks := [], totalChunks := 0,
            targetURL := "http://t", method := "GET", headers := [] } [] = []
      ∧ clientTotalChunks 8192 [] = 1) :=
  ⟨by decide, central_empty_response_no_chunks 8192 ["d0", "d1"]
    { sessionID := "s", chunks := [], totalChunks := 0,
      targetURL := "http://t", method := "GET", headers := [] } (by decide)⟩

/-! ## Relay rotation -/

theorem rotateOnce_eq (nextHops : List String) (idx : Nat)
    (hlen : 1 ≤ nextHops.length) (hidx : idx < nextHops.length) :
    rotateOnce nextHops idx = (idx + 1) % nextHops.length := by
  unfold rotateOnce
  by_cases h : nextHops.length ≤ 1
  · rw [if_pos h]
    have hl : nextHops.length = 1 := by omega
    have hz : idx = 0 := by omega
    rw [hl, hz]
  · rw [if_neg h]

theorem rotateOnce_lt (nextHops : List String) (idx : Nat)
    (hlen : 1 ≤ nextHops.length) (hidx : idx < nextHops.length) :
    rotateOnce nextHops idx < nextHops.length := by
  unfold rotateOnce
  by_cases h : nextHops.length ≤ 1
  · rw [if_pos h]
    exact hidx
  · rw [if_neg h]
    exact Nat.mod_lt _ (by omega)

theorem rotateTicks_eq (nextHops : List String) (hlen : 1 ≤ nextHops.length) :
    ∀ k idx, idx < nextHops.length →
      rotateTicks nextHops k idx = (idx + k) % nextHops.length := by
  intro k
  induction k with
  | zero =>
      intro idx hidx
      show idx = (idx + 0) % nextHops.length
      rw [Nat.add_zero, Nat.mod_eq_of_lt hidx]
  | succ k ih =>
      intro idx hidx
      show rotateTicks nextHops k (rotateOnce nextHops idx) = _
      rw [ih (rotateOnce nextHops idx) (rotateOnce_lt nextHops idx hlen hidx),
        rotateOnce_eq nextHops idx hlen hidx, Nat.mod_add_mod]
      congr 1
      omega

/-- C9: relay next-hop rotation.  With rotation enabled and at least one
next hop, each elapsed rotation period advances the cursor to
`(i+1) mod len(nextHops)` (the code's skip of the tick for lists of length 1
coincides with `(i+1) mod 1 = i = 0`); after `T` seconds with period `P ≥ 1`
the ticker has fired `⌊T/P⌋` times, so the cursor sits at
`⌊T/P⌋ mod len(nextHops)`; and the cursor always stays in
`[0, len(nextHops))`. -/
theorem relay_rotation_cursor (nextHops : List String) (idx T P k : Nat)
    (hlen : 1 ≤ nextHops.length) (hidx : idx < nextHops.length) (hP : 1 ≤ P) :
    rotateOnce nextHops idx = (idx + 1) % nextHops.length
    ∧ rotateTicks nextHops (T / P) 0 = (T / P) % nextHops.length
    ∧ rotateTicks nextHops k idx < nextHops.length := by
  refine ⟨rotateOnce_eq nextHops idx hlen hidx, ?_, ?_⟩
  · rw [rotateTicks_eq nextHops hlen (T / P) 0 (by omega), Nat.zero_add]
  · rw [rotateTicks_eq nextHops hlen k idx hidx]
    exact Nat.mod_lt _ (by omega)

/-- Witness for C9 with three next hops, cursor 1, T = 7 s, P = 2 s, 5 ticks. -/
theorem relay_rotation_cursor_witness :
    (1 ≤ (["h0", "h1", "h2"] : List String).length
      ∧ 1 < (["h0", "h1", "h2"] : List String).length
      ∧ 1 ≤ 2)
    ∧ (rotateOnce ["h0", "h1", "h2"] 1 = (1 + 1) % (["h0", "h1", "h2"] : List String).length
      ∧ rotateTicks ["h0", "h1", "h2"] (7 / 2) 0
          = (7 / 2) % (["h0", "h1", "h2"] : List String).length
      ∧ rotateTicks ["h0", "h1", "h2"] 5 1 < (["h0", "h1", "h2"] : List String).length) :=
  ⟨by decide, relay_rotation_cursor ["h0", "h1", "h2"] 1 7 2 5 (by decide) (by decide)
    (by decide)⟩

/-! ## Central outbound headers -/

/-- C8 (amended): the outbound request issued by
`CentralProxy.performProxyRequest` uses the session's method, target URL and
reassembled body, and forwards EVERY session header unchanged — the inter-node
auth headers `X-Node-ID` and `X-Auth-Token` are not removed at the central
proxy (header stripping exists only in the gateway's
`performProxyRequest`). -/
theorem central_outbound_headers_unchanged (s : Session) (body : List Nat) (k : String) :
    (centralOutbound s body).method = s.method
    ∧ (centralOutbound s body).url = s.targetURL
    ∧ (centralOutbound s body).body = some body
    ∧ (centralOutbound s body).headers = s.headers
    ∧ lookupKey (centralOutbound s body).headers k = lookupKey s.headers k :=
  ⟨rfl, rfl, rfl, rfl, rfl⟩

/-- Fixture for C8: a central session whose headers carry an `X-Node-ID`. -/
def authHeaderSession : Session :=
  { sessionID := "s", chunks := [], totalChunks := 0, targetURL := "http://t",
    method := "GET", headers := [("X-Node-ID", "relay-1"), ("Accept", "text/html")] }

/-- C8 counterexample: the claim says the outbound request carries the
session's headers with `X-Node-ID` and `X-Auth-Token` removed; on this
concrete session the header `X-Node-ID` survives into the outbound request,
and the outbound header list differs from the stripped one. -/
theorem central_outbound_keeps_auth_header :
    lookupKey (centralOutbound authHeaderSession [1]).headers "X-Node-ID" = some "relay-1"
    ∧ (centralOutbound authHeaderSession [1]).headers
        ≠ stripInternalHeaders authHeaderSession.headers := by
  decide

/-! ## Per-hop encryption -/

/-- C1 (violated by the code): with encryption enabled everywhere, the
upstream's `handleChunk` calls `EncryptAES` on the payload it received
WITHOUT decrypting it first, so the chunk reaching the central proxy is
doubly sealed; the central's single `DecryptAES` therefore recovers the
client's ciphertext (still nonce-prefixed and sealed), never the plaintext
fragment the client encrypted. -/
theorem upstream_no_decrypt_before_reencrypt :
    (∀ key n1 n2 plain,
      centralChunkData key (upstreamChunkData key n2 (clientEncryptChunkData key n1 plain))
        = some (PayloadData.cipher key n1 (.raw plain)))
    ∧ centralChunkData 7 (upstreamChunkData 7 2 (clientEncryptChunkData 7 1 [10, 20]))
        ≠ some (PayloadData.raw [10, 20]) := by
  constructor
  · intro key n1 n2 plain
    simp [centralChunkData, upstreamChunkData, clientEncryptChunkData, EncryptAES, DecryptAES]
  · decide

/-! ## Gateway /proxy replies -/

/-- Fixture for C5: the parsed body of an authenticated `/proxy` request. -/
def gwReqBody : ProxyRequestBody :=
  { requestID := "q1", targetURL := "http://t", method := "GET", body := [1],
    headers := [("Accept", "x")] }

/-- C5 (the non-mixing half is violated by the code): with traffic mixing
enabled the gateway enqueues the request and answers 202 with a queued
acknowledgement carrying the request id, as claimed; with mixing disabled it
executes the outbound call immediately and answers 200, but the body it
returns is the empty `make([]byte, 0)` stub of
`StarlinkGateway.performProxyRequest` — not the response body the internet
target returned (here `[104, 101, 121]`). -/
theorem gateway_proxy_reply_modes :
    handleProxyRequest (fun _ => [104, 101, 121]) true [("r1", "tok")] [] "r1" "tok" gwReqBody
      = ([{ requestID := "q1", nodeID := "r1", targetURL := "http://t", method := "GET",
            body := [1], headers := [("Accept", "x")] }], .queuedAck "q1", [])
    ∧ handleProxyRequest (fun _ => [104, 101, 121]) false [("r1", "tok")] [] "r1" "tok" gwReqBody
      = ([], .okBody [],
          [{ method := "GET", url := "http://t", headers := [("Accept", "x")], body := none }])
    ∧ (fun _ => [104, 101, 121] : OutboundRequest → List Nat)
        { method := "GET", url := "http://t", headers := [("Accept", "x")], body := none }
      = [104, 101, 121]
    ∧ GatewayReply.okBody [] ≠ GatewayReply.okBody [104, 101, 121] := by
  refine ⟨by decide, by decide, rfl, by decide⟩

/-! ## Gateway authentication and registration -/

theorem hexEncode_length (bs : List Nat) : (hexEncode bs).length = 2 * bs.length := by
  induction bs with
  | nil => rfl
  | cons b rest ih =>
      simp only [hexEncode, List.map_cons, List.flatten_cons, List.length_append,
        List.length_cons, List.length_nil] at ih ⊢
      omega

theorem hexChars_getD_mem (i : Nat) (hi : i < 16) : hexChars.getD i '0' ∈ hexChars := by
  rw [List.getD_eq_getElem hexChars '0' (by simp [hexChars]; omega)]
  exact List.getElem_mem _

theorem hexEncode_all_hex (bs : List Nat) (h : ∀ b ∈ bs, b < 256) :
    (hexEncode bs).all (fun ch => hexChars.contains ch) = true := by
  induction bs with
  | nil => rfl
  | cons b rest ih =>
      have hb : b < 256 := h b (by simp)
      have h1 : hexChars.getD (b / 16) '0' ∈ hexChars := hexChars_getD_mem _ (by omega)
      have h2 : hexChars.getD (b % 16) '0' ∈ hexChars :=
        hexChars_getD_mem _ (Nat.mod_lt _ (by omega))
      simp only [hexEncode, List.map_cons, List.flatten_cons, List.all_append, List.all_cons,
        List.all_nil, Bool.and_true, Bool.and_eq_true, List.contains, List.elem_eq_mem,
        decide_eq_true_eq]
      refine ⟨⟨h1, h2⟩, ?_⟩
      have := ih fun b' hb' => h b' (by simp [hb'])
      simpa [hexEncode] using this

/-- Fixture for C6: the parsed body of an unauthenticated `/proxy` attempt. -/
def gwAuthReqBody : ProxyRequestBody :=
  { requestID := "q2", targetURL := "http://t", method := "GET", body := [],
    headers := [] }

/-- C6: gateway authentication and registration.  A `/proxy` request whose
`X-Node-ID`/`X-Auth-Token` pair does not match a stored (node, token) entry —
missing headers arrive as empty strings and match nothing stored — is answered
401 with nothing executed and the batch unchanged; `/register` with a node id
outside the configured authenticated-nodes list is answered 401 and stores
nothing; for a configured node id a fresh token is minted from 32 random
bytes as 64 lowercase-hex characters, stored under the node id, and a
subsequent `/proxy` authentication bearing that token succeeds. -/
theorem gateway_authentication
    (internet : OutboundRequest → List Nat) (trafficMixing : Bool)
    (tokens tokens0 : List (String × String)) (batch : List TrafficRequest)
    (authNodes : List String)
    (nodeID token badNode regNode secretA secretB : String) (p : ProxyRequestBody)
    (randomBytes : List Nat)
    (hfail : authenticateNode tokens nodeID token = false)
    (hbad : badNode ∉ authNodes) (hconf : regNode ∈ authNodes)
    (hlen : randomBytes.length = 32) (hbytes : ∀ b ∈ randomBytes, b < 256) :
    handleProxyRequest internet trafficMixing tokens batch nodeID token p
        = (batch, .unauthorized, [])
    ∧ handleNodeRegistration randomBytes authNodes tokens0 badNode secretA
        = (tokens0, .unauthorized)
    ∧ (generateToken randomBytes).length = 64
    ∧ (hexEncode randomBytes).all (fun ch => hexChars.contains ch) = true
    ∧ lookupKey (handleNodeRegistration randomBytes authNodes tokens0 regNode secretB).1 regNode
        = some (generateToken randomBytes)
    ∧ authenticateNode (handleNodeRegistration randomBytes authNodes tokens0 regNode secretB).1
        regNode (generateToken randomBytes) = true := by
  have hreg : handleNodeRegistration randomBytes authNodes tokens0 regNode secretB
      = (insertKey tokens0 regNode (generateToken randomBytes),
        .registered regNode (generateToken randomBytes)) := by
    simp [handleNodeRegistration, List.contains, List.elem_eq_mem, hconf]
  refine ⟨?_, ?_, ?_, hexEncode_all_hex randomBytes hbytes, ?_, ?_⟩
  · simp [handleProxyRequest, hfail]
  · simp [handleNodeRegistration, List.contains, List.elem_eq_mem, hbad]
  · show (hexEncode randomBytes).length = 64
    rw [hexEncode_length, hlen]
  · rw [hreg]
    exact lookupKey_insertKey_self tokens0 regNode (generateToken randomBytes)
  · rw [hreg]
    show authenticateNode (insertKey tokens0 regNode (generateToken randomBytes))
      regNode (generateToken randomBytes) = true
    unfold authenticateNode
    rw [lookupKey_insertKey_self]
    simp

/-- Witness for C6: empty stored-token map (so the pair ("x","t") matches
nothing), configured node list `["relay-1"]`, stray node `"evil"`, and 32
random bytes of value 171. -/
theorem gateway_authentication_witness :
    (authenticateNode [] "x" "t" = false
      ∧ ("evil" : String) ∉ (["relay-1"] : List String)
      ∧ ("relay-1" : String) ∈ (["relay-1"] : List String)
      ∧ (List.replicate 32 171).length = 32)
    ∧ (handleProxyRequest (fun _ => []) false [] [] "x" "t" gwAuthReqBody
        = ([], .unauthorized, [])
      ∧ handleNodeRegistration (List.replicate 32 171) ["relay-1"] [] "evil" "s1"
        = ([], .unauthorized)
      ∧ (generateToken (List.replicate 32 171)).length = 64
      ∧ (hexEncode (List.replicate 32 171)).all (fun ch => hexChars.contains ch) = true
      ∧ lookupKey (handleNodeRegistration (List.replicate 32 171) ["relay-1"] [] "relay-1"
          "s2").1 "relay-1" = some (generateToken (List.replicate 32 171))
      ∧ authenticateNode (handleNodeRegistration (List.replicate 32 171) ["relay-1"] []
          "relay-1" "s2").1 "relay-1" (generateToken (List.replicate 32 171)) = true) :=
  ⟨⟨by decide, by decide, by decide, by decide⟩,
    gateway_authentication (fun _ => []) false [] [] [] ["relay-1"] "x" "t" "evil" "relay-1"
      "s1" "s2" gwAuthReqBody (List.replicate 32 171) (by decide) (by decide) (by decide)
      (by decide) (by
        intro b hb
        have hb' := List.eq_of_mem_replicate hb
        omega)⟩

end ProxySystem
